import Mathlib

/-!
Verification development for the kube-router network-policy controller
(`pkg/controllers/netpol`).  The Go source is shallowly embedded: pure
string manipulation becomes Lean functions on `String` / `List String`,
the iptables / ipset side effects become explicit state passing, and the
single-slot full-sync request channel becomes a `Bool` slot.
-/

namespace Netpol

/-- Model of Go `strings.HasPrefix s pat` (byte-wise; here character-wise,
which agrees on the ASCII strings the controller manipulates). -/
def hasPfx (s pat : String) : Bool := pat.data.isPrefixOf s.data

/-- Model of Go `strings.Contains s pat`: `pat` occurs as a contiguous
substring of `s`. -/
def containsStr (s pat : String) : Bool :=
  s.data.tails.any (fun t => pat.data.isPrefixOf t)

/- Chain and ipset name constants from `network_policy_controller.go`.
The Go names `kubePodFirewallChainPrefix`, `kubeNetworkPolicyChainPrefix`,
`kubeSourceIPSetPrefix` and `kubeDestinationIPSetPrefix` are rendered with
the abbreviation `Pfx`. -/

def kubePodFirewallChainPfx : String := "KUBE-POD-FW-"
def kubeNetworkPolicyChainPfx : String := "KUBE-NWPLCY-"
def kubeSourceIPSetPfx : String := "KUBE-SRC-"
def kubeDestinationIPSetPfx : String := "KUBE-DST-"
def kubeInputChainName : String := "KUBE-ROUTER-INPUT"
def kubeForwardChainName : String := "KUBE-ROUTER-FORWARD"
def kubeOutputChainName : String := "KUBE-ROUTER-OUTPUT"
def KubeDefaultPodFWChain : String := "KUBE-POD-FW-DEFAULT"
def kubeIngressNetpolChain : String := "KUBE-NWPLCY-DEFAULT-INGRESS"
def kubeEgressNetpolChain : String := "KUBE-NWPLCY-DEFAULT-EGRESS"

/-! ### C1: the peer-evaluation guard in `syncAffectedNetworkPolicyChains`

The ingress loop (part_000 lines 237-284) and the egress loop (lines
286-333) both contain, after filtering peers by selector match:

    peerPods, err := npc.evalPodPeer(policy, peer)
    if err == nil {
        return err
    }
    ... build ip list, create ipset, refresh ...

We embed the outcome of `evalPodPeer` as data (`PeerEval`) and the loop
body as a function that either returns from the enclosing function
(`LoopExit.returned`, carrying the Go return value) or finishes the loop
(`LoopExit.completed`).  `refreshed` records the `(ipset name, members)`
Refresh calls performed. -/

/-- Outcome of one `evalPodPeer` call: the pod IPs of the returned pods
(`Status.PodIP`, possibly empty strings) and the error value. -/
structure PeerEval where
  pods : List String
  err : Option String
deriving DecidableEq

inductive LoopExit where
  /-- the enclosing `syncAffectedNetworkPolicyChains` returns with this
  error value (`none` models a nil Go error) -/
  | returned (err : Option String) (refreshed : List (String × List String))
  /-- the loop ran to completion -/
  | completed (refreshed : List (String × List String))
deriving DecidableEq

/-- The ingress-rule peer loop of `syncAffectedNetworkPolicyChains`
(part_000 lines 263-282), for one rule whose indexed source ipset is
`setName`; each element of `peers` is a peer that passed the selector
checks, with its `evalPodPeer` outcome. -/
def ingressPeerLoop (setName : String) (acc : List (String × List String)) :
    List PeerEval → LoopExit
  | [] => .completed acc
  | pe :: rest =>
    if pe.err = none then
      -- source: `if err == nil { return err }`
      .returned pe.err acc
    else
      -- source falls through, collects non-empty pod IPs and refreshes
      ingressPeerLoop setName (acc ++ [(setName, pe.pods.filter (fun ip => ip ≠ ""))]) rest

/-- The egress-rule peer loop (part_000 lines 312-331); structurally the
same guard and refresh against the indexed destination ipset. -/
def egressPeerLoop (setName : String) (acc : List (String × List String)) :
    List PeerEval → LoopExit
  | [] => .completed acc
  | pe :: rest =>
    if pe.err = none then
      .returned pe.err acc
    else
      egressPeerLoop setName (acc ++ [(setName, pe.pods.filter (fun ip => ip ≠ ""))]) rest

/-! ### C3 / C4: event handlers, readiness gate and the single-slot channel -/

/-- The fields of a pod that `newPodEventHandler`'s update filter compares
(part_000 lines 42-44): status phase, pod IP and labels. -/
structure PodMeta where
  phase : String
  podIP : String
  labels : List (String × String)
deriving DecidableEq

/-- State of the full-sync request channel (`fullSyncRequestChan`,
capacity 1): `true` means the single slot is occupied. -/
def SlotState := Bool

/-- Model of `RequestFullSync` (network_policy_controller.go lines
182-189): a non-blocking send on the single-slot channel.  Returns the
new slot state and whether the request was enqueued (the `select` sent)
or dropped (the `default` branch ran).  Both branches return
immediately; the caller is never blocked. -/
def requestFullSyncStep (slot : Bool) : Bool × Bool :=
  if slot then (slot, false) else (true, true)

/-- Iterate `n` calls of `RequestFullSync`, counting how many requests
were actually enqueued (each enqueued request yields at most one
additional full sync when the consumer drains the slot). -/
def runRequests : Nat → Bool → Bool × Nat
  | 0, slot => (slot, 0)
  | n + 1, slot =>
    let r := requestFullSyncStep slot
    let rest := runRequests n r.1
    (rest.1, (if r.2 then 1 else 0) + rest.2)

/-- Controller state visible to the pod event handlers: the
`readyForUpdates` flag and the request channel slot. -/
structure LoopState where
  readyForUpdates : Bool
  slot : Bool
deriving DecidableEq

/-- Events delivered to `newPodEventHandler`, plus the consumer step that
completes a full sync.  `update` carries the old and new pod data that
the handler's filter inspects. -/
inductive PodEvent where
  | add
  | update (oldPod newPod : PodMeta)
  | delete
  /-- consumer goroutine: drains the slot, runs `fullPolicySync`, then
  sets `readyForUpdates := true` (network_policy_controller.go 160-163) -/
  | syncDone
deriving DecidableEq

/-- One step of the event system.  The three handler arms mirror
`newPodEventHandler` (part_000 lines 23-57): each first checks
`npc.readyForUpdates` and returns with no side effect when it is false;
otherwise it calls `RequestFullSync` (the update arm only when phase, IP
or labels changed). -/
def handlePodEvent (s : LoopState) : PodEvent → LoopState
  | .add =>
    if !s.readyForUpdates then s
    else { s with slot := (requestFullSyncStep s.slot).1 }
  | .update oldPod newPod =>
    if !s.readyForUpdates then s
    else if newPod.phase ≠ oldPod.phase ∨ newPod.podIP ≠ oldPod.podIP ∨
        newPod.labels ≠ oldPod.labels then
      { s with slot := (requestFullSyncStep s.slot).1 }
    else s
  | .delete =>
    if !s.readyForUpdates then s
    else { s with slot := (requestFullSyncStep s.slot).1 }
  | .syncDone => { readyForUpdates := true, slot := false }

/-! ### C5: staleness computation in `cleanupStaleRules`

`cleanupStaleRules` (network_policy_controller.go lines 499-550) first
inserts the default chains into the active maps, then scans the existing
filter chains and ipsets, collecting as stale exactly those whose name
carries an engine name prefix but which are not active.  The active maps
are embedded as lists with membership lookup. -/

/-- The chain-staleness scan (lines 505-542): given the chains existing
in the filter table and the active maps passed in by the sync, return
`(cleanupPolicyChains, cleanupPodFwChains)`.  The default chains are
added to the active maps before the scan, exactly as the source does. -/
def cleanupChainLists (chains : List String)
    (activePolicyChains activePodFwChains : List String) :
    List String × List String :=
  let ap := activePolicyChains ++ [kubeIngressNetpolChain, kubeEgressNetpolChain]
  let af := activePodFwChains ++ [KubeDefaultPodFWChain]
  ( chains.filter (fun c => hasPfx c kubeNetworkPolicyChainPfx && !(ap.contains c)),
    chains.filter (fun c => hasPfx c kubePodFirewallChainPfx && !(af.contains c)) )

/-- The ipset-staleness scan (lines 543-550): an existing set is stale
when its name carries the source or destination ipset name prefix and it
is not in the active ipset map. -/
def cleanupIPSetList (sets : List String) (activePolicyIPSets : List String) :
    List String :=
  sets.filter (fun s =>
    (hasPfx s kubeSourceIPSetPfx || hasPfx s kubeDestinationIPSetPfx) &&
      !(activePolicyIPSets.contains s))

/-! ### C6: the rebuilt filter-table buffer in `cleanupStaleRules`

Lines 579-614 split the accumulated filter-table text into lines, drop
lines that reference a stale pod-firewall or policy chain, contain
`COMMIT`, or are `# ` comments, route chain declarations (`:` lines,
re-suffixed with " - [0:0]") and rules (`-` lines) into two buffers, and
assemble `*filter`, chains, rules, `COMMIT`.  We embed the text as a
list of lines (Go splits on newline; the dropped trailing empty piece
starts with neither `:` nor `-`, so it never reaches either buffer). -/

/-- The skip test of the rebuild loop (lines 584-603). -/
def skipLine (cleanupPodFwChains cleanupPolicyChains : List String)
    (rule : String) : Bool :=
  cleanupPodFwChains.any (fun c => containsStr rule c) ||
  cleanupPolicyChains.any (fun c => containsStr rule c) ||
  containsStr rule "COMMIT" || hasPfx rule "# "

/-- The rebuilt `desiredFilterTable` (lines 579-614), as its list of
lines.  The single pass that appends to `newChains` and `newRules` is
rendered as order-preserving filters over the kept lines. -/
def rebuildFilterTable (lines : List String)
    (cleanupPodFwChains cleanupPolicyChains : List String) : List String :=
  let kept := lines.filter (fun r => !(skipLine cleanupPodFwChains cleanupPolicyChains r))
  let newChains := (kept.filter (fun r => hasPfx r ":")).map (fun r => r ++ " - [0:0]")
  let newRules := kept.filter (fun r => hasPfx r "-")
  "*filter" :: (newChains ++ newRules ++ ["COMMIT"])

/-! ### C7: the `Cleanup` entry point

`Cleanup` (network_policy_controller.go lines 632-735) is embedded as a
transformer of an abstract host state: the filter table is a list of
named chains with their rule lines (a real host's chain names are
distinct), the ipset universe a list of set names.  The steps, in
source order, with their error paths:
1. `List("filter", kubeForwardChainName)` (line 642) - fails exactly
   when that chain does not exist, and `Cleanup` then logs and returns
   (line 645) having changed nothing; otherwise the loop deletes the
   rules mentioning the pod-firewall chain name prefix (rule-deletion
   errors only log, lines 650-658);
2. the same `List` / delete loop for `KUBE-ROUTER-OUTPUT` (lines
   661-677), returning early when that chain is absent;
3. `ListChains` (line 680; the filter table always exists, so listing
   succeeds), then for every listed chain whose name carries the
   pod-firewall name prefix: `ClearChain` (flushing a listed chain
   succeeds) and `DeleteChain`; `DeleteChain` fails - and `Cleanup`
   logs and returns (lines 692-696) - when some remaining rule still
   references the chain (a reference being an occurrence of the chain
   name in a rule line, the same `strings.Contains` test `Cleanup`
   itself uses for rule matching);
4. the same flush-and-delete pass for the policy chain name prefix over
   a fresh `ListChains` snapshot (lines 701-719);
5. only if every previous step succeeded: `ipset.Save()` followed by
   `ipset.DestroyAllWithin()` (lines 722-733), whose own failures only
   log - the handler was populated from a full save, so this destroys
   every ipset present on the host.
The returned `Bool` records whether control reached step 5 (`true`) or
`Cleanup` returned early (`false`). -/

structure ChainT where
  name : String
  rules : List String
deriving DecidableEq

structure HostState where
  chains : List ChainT
  ipsets : List String
deriving DecidableEq

/-- Drop the rules that mention `pat` from the chain named `chainName`,
leaving every other chain untouched (the delete-by-number loops of
`Cleanup`; the running `realRuleNo` offset makes the loop remove exactly
the matching rules). -/
def deleteRulesReferencing (chainName pat : String) (chains : List ChainT) :
    List ChainT :=
  chains.map (fun ch =>
    if ch.name = chainName then
      { ch with rules := ch.rules.filter (fun r => !(containsStr r pat)) }
    else ch)

/-- Model of `ClearChain("filter", n)`: flush the rules of the chain
named `n`. -/
def clearChainIn (n : String) (st : List ChainT) : List ChainT :=
  st.map (fun ch => if ch.name = n then { ch with rules := [] } else ch)

/-- Whether some rule on the host still references the chain named `n`,
the condition under which `DeleteChain("filter", n)` fails. -/
def chainReferenced (n : String) (st : List ChainT) : Bool :=
  st.any (fun ch => ch.rules.any (fun r => containsStr r n))

/-- One flush-and-delete pass of `Cleanup` (lines 685-698 and 706-719):
walk the chain names listed before the loop; for each name carrying the
prefix, flush the chain, then delete it - unless it is still
referenced, in which case `Cleanup` returns early (`false`, paired with
the host state reached so far). -/
def cleanupChainsLoop (pfx : String) : List String → List ChainT → Bool × List ChainT
  | [], st => (true, st)
  | n :: rest, st =>
    if hasPfx n pfx then
      if chainReferenced n (clearChainIn n st) then (false, clearChainIn n st)
      else cleanupChainsLoop pfx rest ((clearChainIn n st).filter (fun ch => ch.name != n))
    else cleanupChainsLoop pfx rest st

/-- The `Cleanup` operation: the resulting host state, paired with
`true` when all iptables steps succeeded and the ipset destruction step
was reached. -/
def cleanupNPC (h : HostState) : HostState × Bool :=
  if !(h.chains.any (fun ch => ch.name == kubeForwardChainName)) then (h, false)
  else
    let c1 := deleteRulesReferencing kubeForwardChainName kubePodFirewallChainPfx h.chains
    if !(c1.any (fun ch => ch.name == kubeOutputChainName)) then ({ h with chains := c1 }, false)
    else
      let c2 := deleteRulesReferencing kubeOutputChainName kubePodFirewallChainPfx c1
      match cleanupChainsLoop kubePodFirewallChainPfx (c2.map ChainT.name) c2 with
      | (false, c3) => ({ h with chains := c3 }, false)
      | (true, c3) =>
        match cleanupChainsLoop kubeNetworkPolicyChainPfx (c3.map ChainT.name) c3 with
        | (false, c4) => ({ h with chains := c4 }, false)
        | (true, c4) => ({ chains := c4, ipsets := [] }, true)

/-! ### C8 / C10: configuration validation in `NewNetworkPolicyController`

`NewNetworkPolicyController` (lines 738-837) validates the service
cluster-IP CIDR with `net.ParseCIDR`, then the node-port range with the
regular expression `^([0-9]+)[:-]{1}([0-9]+)$` followed by
`strconv.ParseInt(matchGroup, 10, 16)` on both groups, then checks
`port1 >= port2`.  The steps after the node-port check (external-IP CIDR
parsing, metrics registration, node lookup, ipset handle) talk to the
platform API and do not affect the claims; the embedding stops after the
node-port range is formatted. -/

/-- Decimal value of a digit list (all characters are `0`-`9`). -/
def digitsVal (cs : List Char) : Nat :=
  cs.foldl (fun a c => a * 10 + (c.toNat - 48)) 0

/-- Parse a dotted-quad IPv4 octet or a mask length field: a non-empty
all-digit string, returned as its value. -/
def parseDecField (s : String) : Option Nat :=
  if s.data ≠ [] ∧ s.data.all Char.isDigit then some (digitsVal s.data) else none

/-- Split a character list at every occurrence of `sep`, keeping the
pieces in order (the semantics of Go's single-separator string split;
`cur` holds the current piece in reverse). -/
def splitOnCharAux (sep : Char) (cur : List Char) : List Char → List (List Char)
  | [] => [cur.reverse]
  | c :: rest =>
    if c = sep then cur.reverse :: splitOnCharAux sep [] rest
    else splitOnCharAux sep (c :: cur) rest

def splitOnChar (sep : Char) (s : String) : List String :=
  (splitOnCharAux sep [] s.data).map String.mk

/-- Model of `net.ParseCIDR` on the IPv4 dotted-quad inputs the
controller is configured with: `a.b.c.d/n` with octets in 0-255 and mask
length in 0-32.  Returns the parsed octets and mask, or `none` exactly
when Go's parser would return a non-nil error on such input (Go splits
at the first `/` and a mask containing a further `/` fails to parse, so
requiring exactly two pieces is equivalent). -/
def parseCIDRv4 (s : String) : Option (List Nat × Nat) :=
  match splitOnChar '/' s with
  | [addr, mask] =>
    match splitOnChar '.' addr with
    | [o1, o2, o3, o4] =>
      match parseDecField o1, parseDecField o2, parseDecField o3, parseDecField o4,
          parseDecField mask with
      | some v1, some v2, some v3, some v4, some m =>
        if v1 ≤ 255 ∧ v2 ≤ 255 ∧ v3 ≤ 255 ∧ v4 ≤ 255 ∧ m ≤ 32 then
          some ([v1, v2, v3, v4], m)
        else none
      | _, _, _, _, _ => none
    | _ => none
  | _ => none

/-- Model of the anchored regular expression `^([0-9]+)[:-]{1}([0-9]+)$`
used as `nodePortValidator`: the two capture groups on a match, `none`
otherwise.  Since `[:-]` cannot match a digit, the first (greedy) group
is exactly the maximal leading digit run. -/
def nodePortMatch (s : String) : Option (String × String) :=
  match s.data.drop (s.data.takeWhile Char.isDigit).length with
  | [] => none
  | c :: rest =>
    if (s.data.takeWhile Char.isDigit) ≠ [] ∧ (c = ':' ∨ c = '-') ∧
        rest ≠ [] ∧ rest.all Char.isDigit then
      some (String.mk (s.data.takeWhile Char.isDigit), String.mk rest)
    else none

/-- Model of `strconv.ParseInt(s, 10, 16)` on the all-digit strings the
validator delivers (the general function also accepts a sign, which
`[0-9]+` excludes): the parse fails with `ErrRange` when the value does
not fit a signed 16-bit integer, whose largest value is 32767. -/
def parseIntBit16 (s : String) : Option Int :=
  if s.data ≠ [] ∧ s.data.all Char.isDigit then
    if digitsVal s.data > 32767 then none else some (digitsVal s.data : Int)
  else none

/-- The configuration state `NewNetworkPolicyController` has built once
validation has passed (the fields the validated inputs populate). -/
structure NPCConfig where
  serviceClusterIPRange : List Nat × Nat
  serviceNodePortRange : String
deriving DecidableEq

def isErr {α : Type} : Except String α → Bool
  | .error _ => true
  | .ok _ => false

/-- The validation path of `NewNetworkPolicyController` (lines 748-784):
cluster-IP CIDR parse, node-port regular-expression match, two
`ParseInt` calls, and the `port1 >= port2` check, failing with the
source's error message at the first violation. -/
def newNetworkPolicyControllerModel (clusterIPCIDR nodePortRange : String) :
    Except String NPCConfig :=
  match parseCIDRv4 clusterIPCIDR with
  | none => .error "failed to get parse --service-cluster-ip-range parameter"
  | some ipnet =>
    match nodePortMatch nodePortRange with
    | none => .error "failed to parse node port range given"
    | some (m1, m2) =>
      match parseIntBit16 m1 with
      | none => .error "could not parse first port number from range given"
      | some port1 =>
        match parseIntBit16 m2 with
        | none => .error "could not parse second port number from range given"
        | some port2 =>
          if port1 ≥ port2 then
            .error "port 1 is greater than or equal to port 2 in range given"
          else
            .ok { serviceClusterIPRange := ipnet,
                  serviceNodePortRange := toString port1 ++ ":" ++ toString port2 }

/-! ### C9: name derivation

`podFirewallChainName` (part_000 lines 587-591) is

    hash := sha256.Sum256([]byte(namespace + podName + version))
    encoded := base32.StdEncoding.EncodeToString(hash[:])
    return kubePodFirewallChainPrefix + encoded[:16]

The Go standard-library primitives `crypto/sha256` (FIPS 180-4) and
`encoding/base32` (RFC 4648 standard alphabet, `=` padding) are embedded
below as executable functions on byte lists (bytes are `Nat` values
below 256). -/

/-- Truncate to a 32-bit word. -/
def w32 (n : Nat) : Nat := n % 4294967296

/-- Right rotation of a 32-bit word by `n` positions. -/
def rotr32 (n x : Nat) : Nat := w32 ((x >>> n) ||| (x <<< (32 - n)))

def bigSigma0 (x : Nat) : Nat := rotr32 2 x ^^^ rotr32 13 x ^^^ rotr32 22 x
def bigSigma1 (x : Nat) : Nat := rotr32 6 x ^^^ rotr32 11 x ^^^ rotr32 25 x
def smallSigma0 (x : Nat) : Nat := rotr32 7 x ^^^ rotr32 18 x ^^^ (x >>> 3)
def smallSigma1 (x : Nat) : Nat := rotr32 17 x ^^^ rotr32 19 x ^^^ (x >>> 10)
def chF (x y z : Nat) : Nat := (x &&& y) ^^^ ((x ^^^ 4294967295) &&& z)
def majF (x y z : Nat) : Nat := (x &&& y) ^^^ (x &&& z) ^^^ (y &&& z)

/-- The SHA-256 round constants (FIPS 180-4 section 4.2.2), written in
decimal. -/
def sha256K : List Nat :=
  [1116352408, 1899447441, 3049323471, 3921009573, 961987163, 1508970993,
   2453635748, 2870763221, 3624381080, 310598401, 607225278, 1426881987,
   1925078388, 2162078206, 2614888103, 3248222580, 3835390401, 4022224774,
   264347078, 604807628, 770255983, 1249150122, 1555081692, 1996064986,
   2554220882, 2821834349, 2952996808, 3210313671, 3336571891, 3584528711,
   113926993, 338241895, 666307205, 773529912, 1294757372, 1396182291,
   1695183700, 1986661051, 2177026350, 2456956037, 2730485921, 2820302411,
   3259730800, 3345764771, 3516065817, 3600352804, 4094571909, 275423344,
   430227734, 506948616, 659060556, 883997877, 958139571, 1322822218,
   1537002063, 1747873779, 1955562222, 2024104815, 2227730452, 2361852424,
   2428436474, 2756734187, 3204031479, 3329325298]

/-- The eight working variables of the compression function. -/
structure H8 where
  a : Nat
  b : Nat
  c : Nat
  d : Nat
  e : Nat
  f : Nat
  g : Nat
  h : Nat
deriving DecidableEq

def sha256Init : H8 :=
  ⟨1779033703, 3144134277, 1013904242, 2773480762,
   1359893119, 2600822924, 528734635, 1541459225⟩

/-- Big-endian 8-byte encoding of the bit length. -/
def be64 (n : Nat) : List Nat :=
  [(n >>> 56) % 256, (n >>> 48) % 256, (n >>> 40) % 256, (n >>> 32) % 256,
   (n >>> 24) % 256, (n >>> 16) % 256, (n >>> 8) % 256, n % 256]

/-- FIPS 180-4 padding: append `0x80`, zero bytes up to 56 mod 64, then
the message bit length as 8 big-endian bytes. -/
def sha256Pad (msg : List Nat) : List Nat :=
  msg ++ [128] ++ List.replicate ((119 - msg.length % 64) % 64) 0 ++ be64 (8 * msg.length)

/-- Split a byte list into 64-byte blocks, accumulating the current
block in reverse in `buf` (the padded message length is a multiple of
64, so the final buffer is empty). -/
def chunk64Aux (buf : List Nat) : List Nat → List (List Nat)
  | [] => if buf = [] then [] else [buf.reverse]
  | byte :: rest =>
    if buf.length = 63 then (byte :: buf).reverse :: chunk64Aux [] rest
    else chunk64Aux (byte :: buf) rest

/-- Big-endian 32-bit words of a block. -/
def bytesToWords : List Nat → List Nat
  | b0 :: b1 :: b2 :: b3 :: rest =>
    ((b0 <<< 24) ||| (b1 <<< 16) ||| (b2 <<< 8) ||| b3) :: bytesToWords rest
  | _ => []

/-- Extend the 16 block words to the 64-entry message schedule; `n`
counts the remaining entries to generate. -/
def extendW : Nat → List Nat → List Nat
  | 0, w => w
  | n + 1, w =>
    let t := w.length
    let nw := w32 (smallSigma1 (w.getD (t - 2) 0) + w.getD (t - 7) 0 +
      smallSigma0 (w.getD (t - 15) 0) + w.getD (t - 16) 0)
    extendW n (w ++ [nw])

/-- One SHA-256 round: `kw` is the pair of round constant and schedule
word. -/
def roundStep (st : H8) (kw : Nat × Nat) : H8 :=
  let t1 := w32 (st.h + bigSigma1 st.e + chF st.e st.f st.g + kw.1 + kw.2)
  let t2 := w32 (bigSigma0 st.a + majF st.a st.b st.c)
  ⟨w32 (t1 + t2), st.a, st.b, st.c, w32 (st.d + t1), st.e, st.f, st.g⟩

/-- Compression of one 64-byte block. -/
def sha256Compress (st : H8) (block : List Nat) : H8 :=
  let w := extendW 48 (bytesToWords block)
  let fin := (sha256K.zip w).foldl roundStep st
  ⟨w32 (st.a + fin.a), w32 (st.b + fin.b), w32 (st.c + fin.c), w32 (st.d + fin.d),
   w32 (st.e + fin.e), w32 (st.f + fin.f), w32 (st.g + fin.g), w32 (st.h + fin.h)⟩

/-- Big-endian bytes of one hash word. -/
def wordBE (x : Nat) : List Nat :=
  [(x >>> 24) % 256, (x >>> 16) % 256, (x >>> 8) % 256, x % 256]

/-- Model of `sha256.Sum256`: the 32-byte digest of a byte string. -/
def sha256Bytes (msg : List Nat) : List Nat :=
  let st := (chunk64Aux [] (sha256Pad msg)).foldl sha256Compress sha256Init
  wordBE st.a ++ wordBE st.b ++ wordBE st.c ++ wordBE st.d ++
    wordBE st.e ++ wordBE st.f ++ wordBE st.g ++ wordBE st.h

/-- UTF-8 bytes of one character (Go's `[]byte(s)` conversion). -/
def utf8EncodeChar (c : Char) : List Nat :=
  let n := c.toNat
  if n < 128 then [n]
  else if n < 2048 then [192 ||| (n >>> 6), 128 ||| (n &&& 63)]
  else if n < 65536 then
    [224 ||| (n >>> 12), 128 ||| ((n >>> 6) &&& 63), 128 ||| (n &&& 63)]
  else
    [240 ||| (n >>> 18), 128 ||| ((n >>> 12) &&& 63),
     128 ||| ((n >>> 6) &&& 63), 128 ||| (n &&& 63)]

/-- Byte string of a Go string (UTF-8). -/
def strBytes (s : String) : List Nat := (s.data.map utf8EncodeChar).flatten

/-- The RFC 4648 standard base-32 alphabet used by
`base32.StdEncoding`. -/
def b32Char (n : Nat) : Char :=
  "ABCDEFGHIJKLMNOPQRSTUVWXYZ234567".data.getD n 'A'

/-- Model of `base32.StdEncoding.EncodeToString`: 5-byte groups become 8
characters; a final partial group is padded with `=`. -/
def b32Encode : List Nat → List Char
  | b0 :: b1 :: b2 :: b3 :: b4 :: rest =>
    [b32Char (b0 >>> 3), b32Char (((b0 &&& 7) <<< 2) ||| (b1 >>> 6)),
     b32Char ((b1 >>> 1) &&& 31), b32Char (((b1 &&& 1) <<< 4) ||| (b2 >>> 4)),
     b32Char (((b2 &&& 15) <<< 1) ||| (b3 >>> 7)), b32Char ((b3 >>> 2) &&& 31),
     b32Char (((b3 &&& 3) <<< 3) ||| (b4 >>> 5)), b32Char (b4 &&& 31)] ++ b32Encode rest
  | [b0, b1, b2, b3] =>
    [b32Char (b0 >>> 3), b32Char (((b0 &&& 7) <<< 2) ||| (b1 >>> 6)),
     b32Char ((b1 >>> 1) &&& 31), b32Char (((b1 &&& 1) <<< 4) ||| (b2 >>> 4)),
     b32Char (((b2 &&& 15) <<< 1) ||| (b3 >>> 7)), b32Char ((b3 >>> 2) &&& 31),
     b32Char ((b3 &&& 3) <<< 3), '=']
  | [b0, b1, b2] =>
    [b32Char (b0 >>> 3), b32Char (((b0 &&& 7) <<< 2) ||| (b1 >>> 6)),
     b32Char ((b1 >>> 1) &&& 31), b32Char (((b1 &&& 1) <<< 4) ||| (b2 >>> 4)),
     b32Char ((b2 &&& 15) <<< 1), '=', '=', '=']
  | [b0, b1] =>
    [b32Char (b0 >>> 3), b32Char (((b0 &&& 7) <<< 2) ||| (b1 >>> 6)),
     b32Char ((b1 >>> 1) &&& 31), b32Char ((b1 &&& 1) <<< 4), '=', '=', '=', '=']
  | [b0] =>
    [b32Char (b0 >>> 3), b32Char ((b0 &&& 7) <<< 2), '=', '=', '=', '=', '=', '=']
  | [] => []

/-- Embedding of `podFirewallChainName` (part_000 lines 587-591): the pod-firewall
chain name prefix followed by the first 16 characters of the base-32
encoding of the SHA-256 hash of namespace, pod name and sync version
concatenated.  The Go parameter `namespace` is a Lean keyword and is
called `ns` here. -/
def podFirewallChainName (ns podName version : String) : String :=
  kubePodFirewallChainPfx ++
    String.mk ((b32Encode (sha256Bytes (strBytes (ns ++ podName ++ version)))).take 16)

/-- Modelled from the spec: `networkPolicyChainName`, the per-policy
chain name, is not among the provided source files (only its caller
`setupPodIngressRules` is); section 4.1 of the spec gives the same
derivation as the pod-firewall chain name with the policy chain name
prefix and the input `namespace || policy-name || sync-version`. -/
def networkPolicyChainName (ns policyName version : String) : String :=
  kubeNetworkPolicyChainPfx ++
    String.mk ((b32Encode (sha256Bytes (strBytes (ns ++ policyName ++ version)))).take 16)

/-! ### C2: the per-pod firewall chain emitted by `syncPodFirewall`

`syncPodFirewall` (part_000 lines 365-405) writes rule lines for one
local pod into the filter-table buffer; the buffer is later applied
atomically (the rebuild of `cleanupStaleRules` keeps `-` rule lines in
order).  Each written line is either `-I <chain> 1 <args...>` (insert at
position 1, i.e. prepend) or `-A <chain> <args...>` (append); the
embedding keeps the target chain and the mode as structured fields and
the rest of the Go `args` array (minus the trailing newline element) as
the rule body. -/

inductive IptCmd where
  | insertHead
  | append
deriving DecidableEq

structure IptRule where
  cmd : IptCmd
  chain : String
  args : List String
deriving DecidableEq

/-- Embedding of `podInfo` (network_policy_controller.go lines 92-97); the Go field
`namespace` is a Lean keyword and is called `ns` here. -/
structure PodInfoT where
  ip : String
  name : String
  ns : String
  labels : List (String × String)
deriving DecidableEq

/-- The part of `networkPolicyInfo` that `syncPodFirewall` consumes: the
policy name and namespace and the IP keys of its `targetPods` map. -/
structure NetworkPolicyInfoT where
  name : String
  ns : String
  targetPods : List String
deriving DecidableEq

/-- Embedding of `setupPodIngressRules` (part_000 lines 463-493): jumps to each
matching policy chain, or to the default ingress chain when none
matched, then the LOCAL-source accept, then the conntrack accept - all
inserted at position 1. -/
def setupPodIngressRules (pod : PodInfoT) (podFwChainName : String)
    (networkPoliciesInfo : List NetworkPolicyInfoT) (version : String) : List IptRule :=
  let applicable := networkPoliciesInfo.filter (fun p => p.targetPods.contains pod.ip)
  let policyJumps := applicable.map (fun p =>
    { cmd := .insertHead, chain := podFwChainName,
      args := ["-m", "comment", "--comment", "\"run through nw policy " ++ p.name ++ "\"",
        "-j", networkPolicyChainName p.ns p.name version] : IptRule })
  let defaultJump : List IptRule :=
    if applicable.isEmpty then
      [{ cmd := .insertHead, chain := podFwChainName,
         args := ["-d", pod.ip, "-m", "comment", "--comment",
           "\"run through default ingress policy  chain\"", "-j", kubeIngressNetpolChain] }]
    else []
  policyJumps ++ defaultJump ++
    [{ cmd := .insertHead, chain := podFwChainName,
       args := ["-m", "comment", "--comment",
         "\"rule to permit the traffic traffic to pods when source is the pod's local node\"",
         "-m", "addrtype", "--src-type", "LOCAL", "-d", pod.ip, "-j", "ACCEPT"] },
     { cmd := .insertHead, chain := podFwChainName,
       args := ["-m", "comment", "--comment", "\"rule for stateful firewall for pod\"",
         "-m", "conntrack", "--ctstate", "RELATED,ESTABLISHED", "-j", "ACCEPT"] }]

/-- Embedding of `setupPodEgressRules` (part_000 lines 496-524). -/
def setupPodEgressRules (pod : PodInfoT) (podFwChainName : String)
    (networkPoliciesInfo : List NetworkPolicyInfoT) (version : String) : List IptRule :=
  let applicable := networkPoliciesInfo.filter (fun p => p.targetPods.contains pod.ip)
  let policyJumps := applicable.map (fun p =>
    { cmd := .insertHead, chain := podFwChainName,
      args := ["-m", "comment", "--comment", "\"run through nw policy " ++ p.name ++ "\"",
        "-j", networkPolicyChainName p.ns p.name version] : IptRule })
  let defaultJump : List IptRule :=
    if applicable.isEmpty then
      [{ cmd := .insertHead, chain := podFwChainName,
         args := ["-s", pod.ip, "-m", "comment", "--comment",
           "\"run through default egress policy  chain\"", "-j", kubeEgressNetpolChain] }]
    else []
  policyJumps ++ defaultJump ++
    [{ cmd := .insertHead, chain := podFwChainName,
       args := ["-m", "comment", "--comment", "\"rule for stateful firewall for pod\"",
         "-m", "conntrack", "--ctstate", "RELATED,ESTABLISHED", "-j", "ACCEPT"] }]

/-- The rate-limited log rule of `processNonWhitelistedTrafficRules`
(part_000 lines 528-530). -/
def logRuleArgs (podName podNamespace : String) : List String :=
  ["-m", "comment", "--comment",
   "\"rule to log dropped traffic POD name:" ++ podName ++ " namespace: " ++ podNamespace ++ "\"",
   "-m", "mark", "!", "--mark", "0x10000/0x10000", "-j", "NFLOG", "--nflog-group", "100",
   "-m", "limit", "--limit", "10/minute", "--limit-burst", "10"]

/-- The reject rule of `processNonWhitelistedTrafficRules` (part_000
lines 533-535). -/
def rejectRuleArgs (podName podNamespace : String) : List String :=
  ["-m", "comment", "--comment",
   "\"rule to REJECT traffic destined for POD name:" ++ podName ++ " namespace: " ++ podNamespace ++ "\"",
   "-m", "mark", "!", "--mark", "0x10000/0x10000", "-j", "REJECT"]

/-- Embedding of `processNonWhitelistedTrafficRules` (part_000 lines 526-538): two
appended rules, the log rule then the reject rule. -/
def processNonWhitelistedTrafficRules (podName podNamespace podFwChainName : String) :
    List IptRule :=
  [{ cmd := .append, chain := podFwChainName, args := logRuleArgs podName podNamespace },
   { cmd := .append, chain := podFwChainName, args := rejectRuleArgs podName podNamespace }]

/-- The mark-reset rule of `processWhitelistedTrafficRules` (part_000
lines 545-546). -/
def resetMarkArgs : List String := ["-j", "MARK", "--set-mark", "0/0x10000"]

/-- The admitted-by-policy mark rule of `processWhitelistedTrafficRules`
(part_000 lines 550-552). -/
def admitMarkArgs : List String :=
  ["-m", "comment", "--comment", "\"set mark to ACCEPT traffic that comply to network policies\"",
   "-j", "MARK", "--set-mark", "0x20000/0x20000"]

/-- Embedding of `processWhitelistedTrafficRules` (part_000 lines 540-555): two
appended rules, the mark reset then the admitted-by-policy mark. -/
def processWhitelistedTrafficRules (podFwChainName : String) : List IptRule :=
  [{ cmd := .append, chain := podFwChainName, args := resetMarkArgs },
   { cmd := .append, chain := podFwChainName, args := admitMarkArgs }]

/-- Embedding of `interceptPodInboundTraffic` (part_000 lines 409-433): three
position-1 inserts into the custom forward and output chains. -/
def interceptPodInboundTraffic (pod : PodInfoT) (podFwChainName : String) : List IptRule :=
  let comment := "\"rule to jump traffic destined to POD name:" ++ pod.name ++
    " namespace: " ++ pod.ns ++ " to chain " ++ podFwChainName ++ "\""
  [{ cmd := .insertHead, chain := kubeForwardChainName,
     args := ["-m", "comment", "--comment", comment, "-d", pod.ip, "-j", podFwChainName] },
   { cmd := .insertHead, chain := kubeOutputChainName,
     args := ["-m", "comment", "--comment", comment, "-d", pod.ip, "-j", podFwChainName] },
   { cmd := .insertHead, chain := kubeForwardChainName,
     args := ["-m", "physdev", "--physdev-is-bridged", "-m", "comment", "--comment", comment,
       "-d", pod.ip, "-j", podFwChainName] }]

/-- Embedding of `interceptPodOutboundTraffic` (part_000 lines 437-460): position-1
inserts into all three custom chains plus the bridged-traffic rule. -/
def interceptPodOutboundTraffic (pod : PodInfoT) (podFwChainName : String) : List IptRule :=
  let comment := "\"rule to jump traffic from POD name:" ++ pod.name ++
    " namespace: " ++ pod.ns ++ " to chain " ++ podFwChainName ++ "\""
  ([kubeInputChainName, kubeForwardChainName, kubeOutputChainName].map (fun chain =>
    { cmd := .insertHead, chain := chain,
      args := ["-m", "comment", "--comment", comment, "-s", pod.ip, "-j", podFwChainName] : IptRule })) ++
  [{ cmd := .insertHead, chain := kubeForwardChainName,
     args := ["-m", "physdev", "--physdev-is-bridged", "-m", "comment", "--comment", comment,
       "-s", pod.ip, "-j", podFwChainName] }]

/-- Embedding of `syncPodFirewall` (part_000 lines 365-405): the rule lines written
into the filter-table buffer for one local pod, in emission order. -/
def syncPodFirewall (pod : PodInfoT) (networkPoliciesInfo : List NetworkPolicyInfoT)
    (version : String) : List IptRule :=
  let podFwChainName := podFirewallChainName pod.ns pod.name version
  setupPodIngressRules pod podFwChainName networkPoliciesInfo version ++
  setupPodEgressRules pod podFwChainName networkPoliciesInfo version ++
  processNonWhitelistedTrafficRules pod.name pod.ns podFwChainName ++
  processWhitelistedTrafficRules podFwChainName ++
  interceptPodInboundTraffic pod podFwChainName ++
  interceptPodOutboundTraffic pod podFwChainName

/-- One restore step: `-I <chain> 1` prepends the rule, `-A <chain>`
appends it; rules for other chains leave this chain unchanged. -/
def installStep (chainName : String) (acc : List (List String)) (r : IptRule) :
    List (List String) :=
  if r.chain = chainName then
    match r.cmd with
    | .insertHead => r.args :: acc
    | .append => acc ++ [r.args]
  else acc

/-- The rule order of chain `chainName` after the emitted lines are
applied in order by the atomic restore, starting from the freshly
declared (empty) chain. -/
def installedChain (rules : List IptRule) (chainName : String) : List (List String) :=
  rules.foldl (installStep chainName) []

/-! ## Helper lemmas -/

theorem hasPfx_append (s t pat : String) (h : hasPfx s pat = true) :
    hasPfx (s ++ t) pat = true := by
  simp only [hasPfx, List.isPrefixOf_iff_prefix, String.data_append] at h ⊢
  exact h.trans (List.prefix_append s.data t.data)

theorem containsStr_self (s : String) : containsStr s s = true := by
  simp only [containsStr, List.any_eq_true]
  exact ⟨s.data, (List.mem_tails _ _).2 (List.suffix_refl _),
    by simp [List.isPrefixOf_iff_prefix]⟩

theorem string_append_length (s t : String) :
    (s ++ t).length = s.length + t.length := String.length_append s t

/-- Both capture groups of the node-port validator are non-empty
all-digit strings. -/
theorem nodePortMatch_groups (s m1 m2 : String)
    (h : nodePortMatch s = some (m1, m2)) :
    (m1.data ≠ [] ∧ m1.data.all Char.isDigit = true) ∧
    (m2.data ≠ [] ∧ m2.data.all Char.isDigit = true) := by
  unfold nodePortMatch at h
  split at h
  · exact absurd h (by simp)
  next c rest heq =>
    split at h
    next hcond =>
      rw [Option.some_inj] at h
      injection h with h1 h2
      subst h1
      subst h2
      refine ⟨⟨hcond.1, ?_⟩, ⟨hcond.2.2.1, hcond.2.2.2⟩⟩
      exact List.all_eq_true.2 (fun x hx => List.mem_takeWhile_imp hx)
    next => exact absurd h (by simp)

/-- The digest of `sha256Bytes` always has 32 bytes. -/
theorem sha256Bytes_length (msg : List Nat) : (sha256Bytes msg).length = 32 := by
  simp [sha256Bytes, wordBE]

/-- The base-32 encoding of `n` bytes has `8 * ((n + 4) / 5)`
characters (full groups of five bytes give eight characters each; a
final partial group gives eight characters including padding). -/
theorem b32Encode_length (bs : List Nat) :
    (b32Encode bs).length = 8 * ((bs.length + 4) / 5) := by
  induction bs using b32Encode.induct with
  | case1 b0 b1 b2 b3 b4 rest ih =>
    simp only [b32Encode, List.length_append, List.length_cons, List.length_nil, ih]
    omega
  | case2 => simp [b32Encode]
  | case3 => simp [b32Encode]
  | case4 => simp [b32Encode]
  | case5 => simp [b32Encode]
  | case6 => simp [b32Encode]

/-- Every pod-firewall chain name has exactly 28 characters: the
12-character name prefix and the 16 kept hash characters. -/
theorem podFirewallChainName_length (ns podName version : String) :
    (podFirewallChainName ns podName version).length = 28 := by
  have h56 : (b32Encode (sha256Bytes (strBytes (ns ++ podName ++ version)))).length = 56 := by
    rw [b32Encode_length, sha256Bytes_length]
  have h16 : (String.mk ((b32Encode (sha256Bytes (strBytes (ns ++ podName ++ version)))).take 16)).length = 16 := by
    simp [List.length_take, h56]
  unfold podFirewallChainName
  rw [string_append_length, h16]
  decide

/-- Every chain of a filter table survives `deleteRulesReferencing`
under its own name, unchanged unless it is the scrubbed chain. -/
theorem deleteRulesReferencing_mem (chainName pat : String) (chains : List ChainT)
    (ch : ChainT) (h : ch ∈ chains) :
    ∃ ch2 ∈ deleteRulesReferencing chainName pat chains,
      ch2.name = ch.name ∧ (ch.name ≠ chainName → ch2 = ch) := by
  refine ⟨if ch.name = chainName then
      { ch with rules := ch.rules.filter (fun r => !(containsStr r pat)) }
    else ch, ?_, ?_, ?_⟩
  · simp only [deleteRulesReferencing, List.mem_map]
    exact ⟨ch, h, rfl⟩
  · split <;> rfl
  · intro hne
    rw [if_neg hne]

/-- Every chain surviving a flush-and-delete pass has the name of a
chain that entered it. -/
theorem cleanupChainsLoop_names (pfx : String) (names : List String) (st : List ChainT) :
    ∀ ch2 ∈ (cleanupChainsLoop pfx names st).2, ∃ ch ∈ st, ch2.name = ch.name := by
  induction names generalizing st with
  | nil =>
    intro ch2 h2
    simp only [cleanupChainsLoop] at h2
    exact ⟨ch2, h2, rfl⟩
  | cons n rest ih =>
    intro ch2 h2
    by_cases hn : hasPfx n pfx = true
    · by_cases href : chainReferenced n (clearChainIn n st) = true
      · have heq : cleanupChainsLoop pfx (n :: rest) st = (false, clearChainIn n st) := by
          simp [cleanupChainsLoop, hn, href]
        rw [heq] at h2
        simp only [clearChainIn, List.mem_map] at h2
        obtain ⟨ch, hch, heq0⟩ := h2
        refine ⟨ch, hch, ?_⟩
        rw [← heq0]
        split <;> rfl
      · have heq : cleanupChainsLoop pfx (n :: rest) st =
            cleanupChainsLoop pfx rest ((clearChainIn n st).filter (fun ch => ch.name != n)) := by
          simp [cleanupChainsLoop, hn, href]
        rw [heq] at h2
        obtain ⟨chm, hchm, hname⟩ := ih _ ch2 h2
        rw [List.mem_filter] at hchm
        obtain ⟨hmem, _⟩ := hchm
        simp only [clearChainIn, List.mem_map] at hmem
        obtain ⟨ch, hch, heq0⟩ := hmem
        refine ⟨ch, hch, ?_⟩
        rw [hname, ← heq0]
        split <;> rfl
    · have heq : cleanupChainsLoop pfx (n :: rest) st = cleanupChainsLoop pfx rest st := by
        simp [cleanupChainsLoop, hn]
      rw [heq] at h2
      exact ih st ch2 h2

/-- A chain whose name does not carry the pass's prefix goes through a
flush-and-delete pass untouched, whether or not the pass completes. -/
theorem cleanupChainsLoop_preserves (pfx : String) (names : List String) (st : List ChainT)
    (ch : ChainT) (hch : ch ∈ st) (hpfx : hasPfx ch.name pfx = false) :
    ch ∈ (cleanupChainsLoop pfx names st).2 := by
  induction names generalizing st with
  | nil => simpa only [cleanupChainsLoop] using hch
  | cons n rest ih =>
    by_cases hn : hasPfx n pfx = true
    · have hne : ch.name ≠ n := by
        intro he
        rw [he, hn] at hpfx
        exact Bool.noConfusion hpfx
      have hmem1 : ch ∈ clearChainIn n st := by
        have hfix : (fun c => if c.name = n then { c with rules := ([] : List String) } else c) ch
            = ch := by
          simp [hne]
        simp only [clearChainIn]
        rw [← hfix]
        exact List.mem_map_of_mem _ hch
      by_cases href : chainReferenced n (clearChainIn n st) = true
      · have heq : cleanupChainsLoop pfx (n :: rest) st = (false, clearChainIn n st) := by
          simp [cleanupChainsLoop, hn, href]
        rw [heq]
        exact hmem1
      · have heq : cleanupChainsLoop pfx (n :: rest) st =
            cleanupChainsLoop pfx rest ((clearChainIn n st).filter (fun c => c.name != n)) := by
          simp [cleanupChainsLoop, hn, href]
        rw [heq]
        refine ih _ ?_
        rw [List.mem_filter]
        exact ⟨hmem1, by simp [hne]⟩
    · have heq : cleanupChainsLoop pfx (n :: rest) st = cleanupChainsLoop pfx rest st := by
        simp [cleanupChainsLoop, hn]
      rw [heq]
      exact ih st hch

/-- When a flush-and-delete pass runs to completion over a name list
covering every prefixed chain, no chain with that prefix survives it. -/
theorem cleanupChainsLoop_complete (pfx : String) (names : List String) (st : List ChainT)
    (hcov : ∀ ch ∈ st, hasPfx ch.name pfx = true → ch.name ∈ names)
    (hdone : (cleanupChainsLoop pfx names st).1 = true) :
    ∀ ch ∈ (cleanupChainsLoop pfx names st).2, hasPfx ch.name pfx = false := by
  induction names generalizing st with
  | nil =>
    intro ch hch
    simp only [cleanupChainsLoop] at hch
    cases hp : hasPfx ch.name pfx
    · rfl
    · exact absurd (hcov ch hch hp) (List.not_mem_nil _)
  | cons n rest ih =>
    intro ch hch
    by_cases hn : hasPfx n pfx = true
    · by_cases href : chainReferenced n (clearChainIn n st) = true
      · have heq : cleanupChainsLoop pfx (n :: rest) st = (false, clearChainIn n st) := by
          simp [cleanupChainsLoop, hn, href]
        rw [heq] at hdone
        exact absurd hdone (by simp)
      · have heq : cleanupChainsLoop pfx (n :: rest) st =
            cleanupChainsLoop pfx rest ((clearChainIn n st).filter (fun c => c.name != n)) := by
          simp [cleanupChainsLoop, hn, href]
        rw [heq] at hdone hch
        refine ih _ ?_ hdone ch hch
        intro ch2 hch2 hp2
        rw [List.mem_filter] at hch2
        obtain ⟨hmem, hneq⟩ := hch2
        simp only [clearChainIn, List.mem_map] at hmem
        obtain ⟨ch0, hch0, heq0⟩ := hmem
        have hname : ch2.name = ch0.name := by
          rw [← heq0]
          split <;> rfl
        have h0 : ch0.name ∈ n :: rest := hcov ch0 hch0 (by rw [← hname]; exact hp2)
        have hne2 : ch2.name ≠ n := by simpa using hneq
        rw [hname] at hne2 ⊢
        cases h0 with
        | head => exact absurd rfl hne2
        | tail _ hmem0 => exact hmem0
    · have heq : cleanupChainsLoop pfx (n :: rest) st = cleanupChainsLoop pfx rest st := by
        simp [cleanupChainsLoop, hn]
      rw [heq] at hdone hch
      refine ih st ?_ hdone ch hch
      intro ch2 hch2 hp2
      have h0 : ch2.name ∈ n :: rest := hcov ch2 hch2 hp2
      cases h0 with
      | head => exact absurd hp2 hn
      | tail _ hmem0 => exact hmem0

/-- After both flush-and-delete passes complete, no surviving chain
carries either engine name prefix. -/
theorem cleanupLoops_complete (c2 c3 c4 : List ChainT)
    (hq1 : cleanupChainsLoop kubePodFirewallChainPfx (c2.map ChainT.name) c2 = (true, c3))
    (hq2 : cleanupChainsLoop kubeNetworkPolicyChainPfx (c3.map ChainT.name) c3 = (true, c4)) :
    ∀ ch ∈ c4, hasPfx ch.name kubePodFirewallChainPfx = false ∧
      hasPfx ch.name kubeNetworkPolicyChainPfx = false := by
  intro ch hch
  constructor
  · obtain ⟨ch3, hch3, hname⟩ := cleanupChainsLoop_names kubeNetworkPolicyChainPfx
      (c3.map ChainT.name) c3 ch (by rw [hq2]; exact hch)
    have h3 := cleanupChainsLoop_complete kubePodFirewallChainPfx (c2.map ChainT.name) c2
      (fun c hc _ => List.mem_map_of_mem _ hc) (by rw [hq1]) ch3 (by rw [hq1]; exact hch3)
    rw [hname]
    exact h3
  · exact cleanupChainsLoop_complete kubeNetworkPolicyChainPfx (c3.map ChainT.name) c3
      (fun c hc _ => List.mem_map_of_mem _ hc) (by rw [hq2]) ch (by rw [hq2]; exact hch)

/-- The ipset outcome of `Cleanup` is all-or-nothing: reaching the
ipset step destroys every set, returning early destroys none. -/
theorem cleanupNPC_ipsets (h : HostState) :
    ((cleanupNPC h).2 = true → ((cleanupNPC h).1).ipsets = []) ∧
    ((cleanupNPC h).2 = false → ((cleanupNPC h).1).ipsets = h.ipsets) := by
  simp only [cleanupNPC]
  split
  · exact ⟨fun h2 => by simp at h2, fun _ => rfl⟩
  · split
    · exact ⟨fun h2 => by simp at h2, fun _ => rfl⟩
    · split
      · exact ⟨fun h2 => by simp at h2, fun _ => rfl⟩
      · split
        · exact ⟨fun h2 => by simp at h2, fun _ => rfl⟩
        · exact ⟨fun _ => rfl, fun h2 => by simp at h2⟩

/-- A host without the engine's custom forward chain makes the very
first `List` call of `Cleanup` fail: it returns at once, changing
nothing. -/
theorem cleanupNPC_missing_forward (h : HostState)
    (hfwd : h.chains.any (fun ch => ch.name == kubeForwardChainName) = false) :
    cleanupNPC h = (h, false) := by
  simp [cleanupNPC, hfwd]

/-- When `Cleanup` reaches the ipset step, every chain carrying the
pod-firewall or the policy chain name prefix has been deleted. -/
theorem cleanupNPC_complete_chains (h : HostState)
    (hdone : (cleanupNPC h).2 = true) :
    ∀ ch ∈ ((cleanupNPC h).1).chains,
      hasPfx ch.name kubePodFirewallChainPfx = false ∧
      hasPfx ch.name kubeNetworkPolicyChainPfx = false := by
  by_cases hfwd : h.chains.any (fun ch => ch.name == kubeForwardChainName) = true
  case neg =>
    have hf : h.chains.any (fun ch => ch.name == kubeForwardChainName) = false := by
      simpa using hfwd
    rw [cleanupNPC_missing_forward h hf] at hdone
    exact absurd hdone (by simp)
  case pos =>
    by_cases hout : (deleteRulesReferencing kubeForwardChainName kubePodFirewallChainPfx
        h.chains).any (fun ch => ch.name == kubeOutputChainName) = true
    case neg =>
      have ho : (deleteRulesReferencing kubeForwardChainName kubePodFirewallChainPfx
          h.chains).any (fun ch => ch.name == kubeOutputChainName) = false := by
        simpa using hout
      have heq : cleanupNPC h =
          (⟨deleteRulesReferencing kubeForwardChainName kubePodFirewallChainPfx h.chains,
            h.ipsets⟩, false) := by
        simp [cleanupNPC, hfwd, ho]
      rw [heq] at hdone
      exact absurd hdone (by simp)
    case pos =>
      cases hq1 : cleanupChainsLoop kubePodFirewallChainPfx
          ((deleteRulesReferencing kubeOutputChainName kubePodFirewallChainPfx
            (deleteRulesReferencing kubeForwardChainName kubePodFirewallChainPfx
              h.chains)).map ChainT.name)
          (deleteRulesReferencing kubeOutputChainName kubePodFirewallChainPfx
            (deleteRulesReferencing kubeForwardChainName kubePodFirewallChainPfx h.chains)) with
      | mk done1 c3 =>
        cases done1 with
        | false =>
          have heq : cleanupNPC h = ({ h with chains := c3 }, false) := by
            simp [cleanupNPC, hfwd, hout, hq1]
          rw [heq] at hdone
          exact absurd hdone (by simp)
        | true =>
          cases hq2 : cleanupChainsLoop kubeNetworkPolicyChainPfx (c3.map ChainT.name) c3 with
          | mk done2 c4 =>
            cases done2 with
            | false =>
              have heq : cleanupNPC h = ({ h with chains := c4 }, false) := by
                simp [cleanupNPC, hfwd, hout, hq1, hq2]
              rw [heq] at hdone
              exact absurd hdone (by simp)
            | true =>
              have heq : cleanupNPC h = ({ chains := c4, ipsets := [] }, true) := by
                simp [cleanupNPC, hfwd, hout, hq1, hq2]
              rw [heq]
              exact cleanupLoops_complete _ c3 c4 hq1 hq2

/-- On every path through `Cleanup`, a chain without the engine's name
prefixes survives under its own name, with its rules untouched unless
it is one of the two scrubbed custom chains. -/
theorem cleanupNPC_chain_survives (h : HostState) (ch : ChainT) (hch : ch ∈ h.chains)
    (hp1 : hasPfx ch.name kubePodFirewallChainPfx = false)
    (hp2 : hasPfx ch.name kubeNetworkPolicyChainPfx = false) :
    ∃ ch2 ∈ ((cleanupNPC h).1).chains, ch2.name = ch.name ∧
      (ch.name ≠ kubeForwardChainName → ch.name ≠ kubeOutputChainName →
        ch2.rules = ch.rules) := by
  obtain ⟨ch1, h1mem, h1name, h1eq⟩ :=
    deleteRulesReferencing_mem kubeForwardChainName kubePodFirewallChainPfx h.chains ch hch
  obtain ⟨ch2a, h2mem, h2name, h2eq⟩ :=
    deleteRulesReferencing_mem kubeOutputChainName kubePodFirewallChainPfx _ ch1 h1mem
  have hname2 : ch2a.name = ch.name := h2name.trans h1name
  have hrules2 : ch.name ≠ kubeForwardChainName → ch.name ≠ kubeOutputChainName →
      ch2a.rules = ch.rules := by
    intro hnf hno
    have e1 : ch1 = ch := h1eq hnf
    have e2 : ch2a = ch1 := h2eq (by rw [h1name]; exact hno)
    rw [e2, e1]
  by_cases hfwd : h.chains.any (fun c => c.name == kubeForwardChainName) = true
  case neg =>
    have hf : h.chains.any (fun c => c.name == kubeForwardChainName) = false := by
      simpa using hfwd
    rw [cleanupNPC_missing_forward h hf]
    exact ⟨ch, hch, rfl, fun _ _ => rfl⟩
  case pos =>
    by_cases hout : (deleteRulesReferencing kubeForwardChainName kubePodFirewallChainPfx
        h.chains).any (fun c => c.name == kubeOutputChainName) = true
    case neg =>
      have ho : (deleteRulesReferencing kubeForwardChainName kubePodFirewallChainPfx
          h.chains).any (fun c => c.name == kubeOutputChainName) = false := by
        simpa using hout
      have heq : cleanupNPC h =
          (⟨deleteRulesReferencing kubeForwardChainName kubePodFirewallChainPfx h.chains,
            h.ipsets⟩, false) := by
        simp [cleanupNPC, hfwd, ho]
      rw [heq]
      exact ⟨ch1, h1mem, h1name, fun hnf _ => by rw [h1eq hnf]⟩
    case pos =>
      have hp1a : hasPfx ch2a.name kubePodFirewallChainPfx = false := by
        rw [hname2]; exact hp1
      have hp2a : hasPfx ch2a.name kubeNetworkPolicyChainPfx = false := by
        rw [hname2]; exact hp2
      cases hq1 : cleanupChainsLoop kubePodFirewallChainPfx
          ((deleteRulesReferencing kubeOutputChainName kubePodFirewallChainPfx
            (deleteRulesReferencing kubeForwardChainName kubePodFirewallChainPfx
              h.chains)).map ChainT.name)
          (deleteRulesReferencing kubeOutputChainName kubePodFirewallChainPfx
            (deleteRulesReferencing kubeForwardChainName kubePodFirewallChainPfx h.chains)) with
      | mk done1 c3 =>
        have hmem3 : ch2a ∈ c3 := by
          have hpres := cleanupChainsLoop_preserves kubePodFirewallChainPfx
            ((deleteRulesReferencing kubeOutputChainName kubePodFirewallChainPfx
              (deleteRulesReferencing kubeForwardChainName kubePodFirewallChainPfx
                h.chains)).map ChainT.name)
            (deleteRulesReferencing kubeOutputChainName kubePodFirewallChainPfx
              (deleteRulesReferencing kubeForwardChainName kubePodFirewallChainPfx h.chains))
            ch2a h2mem hp1a
          rw [hq1] at hpres
          exact hpres
        cases done1 with
        | false =>
          have heq : cleanupNPC h = ({ h with chains := c3 }, false) := by
            simp [cleanupNPC, hfwd, hout, hq1]
          rw [heq]
          exact ⟨ch2a, hmem3, hname2, hrules2⟩
        | true =>
          cases hq2 : cleanupChainsLoop kubeNetworkPolicyChainPfx (c3.map ChainT.name) c3 with
          | mk done2 c4 =>
            have hmem4 : ch2a ∈ c4 := by
              have hpres := cleanupChainsLoop_preserves kubeNetworkPolicyChainPfx
                (c3.map ChainT.name) c3 ch2a hmem3 hp2a
              rw [hq2] at hpres
              exact hpres
            cases done2 with
            | false =>
              have heq : cleanupNPC h = ({ h with chains := c4 }, false) := by
                simp [cleanupNPC, hfwd, hout, hq1, hq2]
              rw [heq]
              exact ⟨ch2a, hmem4, hname2, hrules2⟩
            | true =>
              have heq : cleanupNPC h = ({ chains := c4, ipsets := [] }, true) := by
                simp [cleanupNPC, hfwd, hout, hq1, hq2]
              rw [heq]
              exact ⟨ch2a, hmem4, hname2, hrules2⟩

/-- A pod-firewall chain name never collides with one of the engine's
top-level custom chain names (the lengths differ). -/
theorem podFirewallChainName_ne_top (ns podName version : String) :
    podFirewallChainName ns podName version ≠ kubeInputChainName ∧
    podFirewallChainName ns podName version ≠ kubeForwardChainName ∧
    podFirewallChainName ns podName version ≠ kubeOutputChainName := by
  refine ⟨fun h => ?_, fun h => ?_, fun h => ?_⟩ <;>
    have hl := congrArg String.length h <;>
      rw [podFirewallChainName_length] at hl <;> revert hl <;> decide

/-- A single full-sync request channel slot that is already occupied
absorbs every further non-blocking send. -/
theorem runRequests_occupied (n : Nat) : runRequests n true = (true, 0) := by
  induction n with
  | zero => rfl
  | succ k ih => simp [runRequests, requestFullSyncStep, ih]

/-- Over any number of calls, at most one request is enqueued beyond
what drains of the slot would consume. -/
theorem runRequests_le_one (n : Nat) (b : Bool) : (runRequests n b).2 ≤ 1 := by
  cases b with
  | true => simp [runRequests_occupied]
  | false =>
    cases n with
    | zero => simp [runRequests]
    | succ k => simp [runRequests, requestFullSyncStep, runRequests_occupied]

/-- Restore steps that target other chains leave this chain's rule list
unchanged. -/
theorem foldl_installStep_no_match (c : String) (rules : List IptRule)
    (acc : List (List String)) (h : ∀ r ∈ rules, r.chain ≠ c) :
    rules.foldl (installStep c) acc = acc := by
  induction rules generalizing acc with
  | nil => rfl
  | cons r rest ih =>
    rw [List.foldl_cons]
    have hr : installStep c acc r = acc := by
      simp [installStep, h r (List.mem_cons_self _ _)]
    rw [hr]
    exact ih acc (fun r2 h2 => h r2 (List.mem_cons_of_mem _ h2))

/-- A run of position-1 inserts into this chain lands in reverse
emission order in front of whatever was there. -/
theorem foldl_installStep_inserts (c : String) (rules : List IptRule)
    (acc : List (List String))
    (h : ∀ r ∈ rules, r.chain = c ∧ r.cmd = IptCmd.insertHead) :
    rules.foldl (installStep c) acc = rules.reverse.map IptRule.args ++ acc := by
  induction rules generalizing acc with
  | nil => simp
  | cons r rest ih =>
    rw [List.foldl_cons]
    have hr : installStep c acc r = r.args :: acc := by
      obtain ⟨hc, hcmd⟩ := h r (List.mem_cons_self _ _)
      simp [installStep, hc, hcmd]
    rw [hr, ih (r.args :: acc) (fun r2 h2 => h r2 (List.mem_cons_of_mem _ h2))]
    simp

/-- Every rule emitted by `setupPodIngressRules` is a position-1 insert
into the pod's firewall chain. -/
theorem setupPodIngressRules_insert (pod : PodInfoT) (fwName : String)
    (pols : List NetworkPolicyInfoT) (version : String) :
    ∀ r ∈ setupPodIngressRules pod fwName pols version,
      r.chain = fwName ∧ r.cmd = IptCmd.insertHead := by
  intro r hr
  simp only [setupPodIngressRules, List.mem_append, List.mem_map, List.mem_cons,
    List.not_mem_nil, or_false] at hr
  rcases hr with (⟨p, hp, heq⟩ | hr) | (rfl | rfl)
  · rw [← heq]
    exact ⟨rfl, rfl⟩
  · split at hr
    · rcases List.mem_singleton.1 hr with rfl
      exact ⟨rfl, rfl⟩
    · exact absurd hr (List.not_mem_nil r)
  · exact ⟨rfl, rfl⟩
  · exact ⟨rfl, rfl⟩

/-- Every rule emitted by `setupPodEgressRules` is a position-1 insert
into the pod's firewall chain. -/
theorem setupPodEgressRules_insert (pod : PodInfoT) (fwName : String)
    (pols : List NetworkPolicyInfoT) (version : String) :
    ∀ r ∈ setupPodEgressRules pod fwName pols version,
      r.chain = fwName ∧ r.cmd = IptCmd.insertHead := by
  intro r hr
  simp only [setupPodEgressRules, List.mem_append, List.mem_map, List.mem_cons,
    List.not_mem_nil, or_false] at hr
  rcases hr with (⟨p, hp, heq⟩ | hr) | rfl
  · rw [← heq]
    exact ⟨rfl, rfl⟩
  · split at hr
    · rcases List.mem_singleton.1 hr with rfl
      exact ⟨rfl, rfl⟩
    · exact absurd hr (List.not_mem_nil r)
  · exact ⟨rfl, rfl⟩

/-- The inbound intercept rules all target the engine's custom forward
and output chains. -/
theorem interceptPodInboundTraffic_chains (pod : PodInfoT) (fwName : String) :
    ∀ r ∈ interceptPodInboundTraffic pod fwName,
      r.chain = kubeForwardChainName ∨ r.chain = kubeOutputChainName ∨
        r.chain = kubeInputChainName := by
  intro r hr
  simp only [interceptPodInboundTraffic, List.mem_cons, List.not_mem_nil, or_false] at hr
  rcases hr with rfl | rfl | rfl
  · exact Or.inl rfl
  · exact Or.inr (Or.inl rfl)
  · exact Or.inl rfl

/-- The outbound intercept rules all target the engine's custom
top-level chains. -/
theorem interceptPodOutboundTraffic_chains (pod : PodInfoT) (fwName : String) :
    ∀ r ∈ interceptPodOutboundTraffic pod fwName,
      r.chain = kubeForwardChainName ∨ r.chain = kubeOutputChainName ∨
        r.chain = kubeInputChainName := by
  intro r hr
  simp only [interceptPodOutboundTraffic, List.map_cons, List.map_nil, List.mem_append,
    List.mem_cons, List.not_mem_nil, or_false] at hr
  rcases hr with (rfl | rfl | rfl) | rfl
  · exact Or.inr (Or.inr rfl)
  · exact Or.inl rfl
  · exact Or.inr (Or.inl rfl)
  · exact Or.inl rfl

/-- The installed order of one pod-firewall chain, for any chain name
distinct from the engine's top-level chains: the position-1 inserts in
reverse emission order, then the four appended tail rules - the log
rule, the reject rule, the mark reset, the admitted-by-policy mark, in
that order. -/
theorem installed_syncPodFirewall_gen (pod : PodInfoT)
    (pols : List NetworkPolicyInfoT) (version fwName : String)
    (h1 : fwName ≠ kubeInputChainName) (h2 : fwName ≠ kubeForwardChainName)
    (h3 : fwName ≠ kubeOutputChainName) :
    installedChain (setupPodIngressRules pod fwName pols version ++
      setupPodEgressRules pod fwName pols version ++
      processNonWhitelistedTrafficRules pod.name pod.ns fwName ++
      processWhitelistedTrafficRules fwName ++
      interceptPodInboundTraffic pod fwName ++
      interceptPodOutboundTraffic pod fwName) fwName =
    (setupPodEgressRules pod fwName pols version).reverse.map IptRule.args ++
    (setupPodIngressRules pod fwName pols version).reverse.map IptRule.args ++
    [logRuleArgs pod.name pod.ns, rejectRuleArgs pod.name pod.ns,
      resetMarkArgs, admitMarkArgs] := by
  have hin : ∀ r ∈ interceptPodInboundTraffic pod fwName, r.chain ≠ fwName := by
    intro r hr
    rcases interceptPodInboundTraffic_chains pod fwName r hr with hc | hc | hc <;>
      rw [hc] <;> intro he
    · exact h2 he.symm
    · exact h3 he.symm
    · exact h1 he.symm
  have hout : ∀ r ∈ interceptPodOutboundTraffic pod fwName, r.chain ≠ fwName := by
    intro r hr
    rcases interceptPodOutboundTraffic_chains pod fwName r hr with hc | hc | hc <;>
      rw [hc] <;> intro he
    · exact h2 he.symm
    · exact h3 he.symm
    · exact h1 he.symm
  unfold installedChain
  rw [List.foldl_append, List.foldl_append, List.foldl_append, List.foldl_append,
    List.foldl_append]
  rw [foldl_installStep_inserts _ _ _ (setupPodIngressRules_insert pod fwName pols version)]
  rw [foldl_installStep_inserts _ _ _ (setupPodEgressRules_insert pod fwName pols version)]
  rw [foldl_installStep_no_match _ _ _ hout, foldl_installStep_no_match _ _ _ hin]
  simp [processNonWhitelistedTrafficRules, processWhitelistedTrafficRules, installStep]

/-! ## Claim theorems -/

/-- Claim C1 (code bug): at the peer-evaluation guard of
`syncAffectedNetworkPolicyChains`, a successful `evalPodPeer` (nil
error) makes the function return immediately - with a nil error and
without building or refreshing the rule's peer IP set - while a failed
evaluation (non-nil error) is swallowed and processing continues to the
ipset refresh.  This is the opposite of the claimed behaviour, on both
the ingress and the egress loop. -/
theorem c1_inverted_guard_behavior :
    ingressPeerLoop "KUBE-SRC-SET" [] [⟨["10.1.5.7"], none⟩] = .returned none [] ∧
    ingressPeerLoop "KUBE-SRC-SET" [] [⟨[], some "pod lister failed"⟩] =
      .completed [("KUBE-SRC-SET", [])] ∧
    egressPeerLoop "KUBE-DST-SET" [] [⟨["10.1.5.7"], none⟩] = .returned none [] ∧
    egressPeerLoop "KUBE-DST-SET" [] [⟨[], some "pod lister failed"⟩] =
      .completed [("KUBE-DST-SET", [])] := by
  refine ⟨by decide, by decide, by decide, by decide⟩

/-- Claim C3: while `readyForUpdates` is false - which holds until the
full-sync consumer has run `fullPolicySync` once (`PodEvent.syncDone`) -
every pod add, update and delete event leaves the controller state
untouched; in particular no full-sync request is enqueued. -/
theorem c3_handlers_noop_before_first_sync (s : LoopState) (evs : List PodEvent)
    (hready : s.readyForUpdates = false)
    (hnosync : ∀ e ∈ evs, e ≠ PodEvent.syncDone) :
    evs.foldl handlePodEvent s = s := by
  induction evs with
  | nil => rfl
  | cons e rest ih =>
    have he : handlePodEvent s e = s := by
      cases e with
      | add => simp [handlePodEvent, hready]
      | update oldPod newPod => simp [handlePodEvent, hready]
      | delete => simp [handlePodEvent, hready]
      | syncDone => exact absurd rfl (hnosync _ (List.mem_cons_self _ _))
    rw [List.foldl_cons, he]
    exact ih (fun e he => hnosync e (List.mem_cons_of_mem _ he))

theorem c3_handlers_noop_before_first_sync_witness :
    List.foldl handlePodEvent ⟨false, false⟩
      [PodEvent.add, PodEvent.update ⟨"Running", "10.1.2.5", []⟩ ⟨"Running", "10.1.2.6", []⟩,
       PodEvent.delete] = (⟨false, false⟩ : LoopState) :=
  c3_handlers_noop_before_first_sync ⟨false, false⟩ _ rfl (by decide)

/-- Claim C4: `RequestFullSync` never blocks (the occupied-slot case
returns at once, having sent nothing), sending `n > 1` requests against
an occupied slot enqueues none of them, and from any slot state at most
one of any burst of requests is enqueued - so at most one additional
full sync results. -/
theorem c4_request_coalescing (n : Nat) (slot : Bool) (hslot : slot = true)
    (hn : 1 < n) :
    (runRequests n slot).2 = 0 ∧
    (∀ (m : Nat) (b : Bool), (runRequests m b).2 ≤ 1) ∧
    requestFullSyncStep true = (true, false) := by
  subst hslot
  exact ⟨by simp [runRequests_occupied], fun m b => runRequests_le_one m b, rfl⟩

theorem c4_request_coalescing_witness :
    (runRequests 1000 true).2 = 0 :=
  (c4_request_coalescing 1000 true rfl (by norm_num)).1

/-- Claim C5: `cleanupStaleRules` adds the default ingress, default
egress and default pod-firewall chains to the active maps before the
staleness scan, so no default chain ever appears in a cleanup list, and
everything the scan marks stale carries one of the reserved name
prefixes. -/
theorem c5_gc_defaults_and_prefix_discipline
    (chains activePolicy activePodFw sets activeSets : List String) :
    kubeIngressNetpolChain ∉ (cleanupChainLists chains activePolicy activePodFw).1 ∧
    kubeEgressNetpolChain ∉ (cleanupChainLists chains activePolicy activePodFw).1 ∧
    KubeDefaultPodFWChain ∉ (cleanupChainLists chains activePolicy activePodFw).2 ∧
    kubeIngressNetpolChain ∉ (cleanupChainLists chains activePolicy activePodFw).2 ∧
    kubeEgressNetpolChain ∉ (cleanupChainLists chains activePolicy activePodFw).2 ∧
    KubeDefaultPodFWChain ∉ (cleanupChainLists chains activePolicy activePodFw).1 ∧
    (∀ c ∈ (cleanupChainLists chains activePolicy activePodFw).1,
      hasPfx c kubeNetworkPolicyChainPfx = true) ∧
    (∀ c ∈ (cleanupChainLists chains activePolicy activePodFw).2,
      hasPfx c kubePodFirewallChainPfx = true) ∧
    (∀ s ∈ cleanupIPSetList sets activeSets,
      hasPfx s kubeSourceIPSetPfx = true ∨ hasPfx s kubeDestinationIPSetPfx = true) := by
  refine ⟨?_, ?_, ?_, ?_, ?_, ?_, ?_, ?_, ?_⟩
  · intro h
    simp [cleanupChainLists, List.mem_filter] at h
  · intro h
    simp [cleanupChainLists, List.mem_filter] at h
  · intro h
    simp [cleanupChainLists, List.mem_filter] at h
  · intro h
    simp [cleanupChainLists, List.mem_filter, hasPfx] at h
    exact absurd h.2.1 (by decide)
  · intro h
    simp [cleanupChainLists, List.mem_filter, hasPfx] at h
    exact absurd h.2.1 (by decide)
  · intro h
    simp [cleanupChainLists, List.mem_filter, hasPfx] at h
    exact absurd h.2.1 (by decide)
  · intro c hc
    simp [cleanupChainLists, List.mem_filter] at hc
    exact hc.2.1
  · intro c hc
    simp [cleanupChainLists, List.mem_filter] at hc
    exact hc.2.1
  · intro s hs
    simp [cleanupIPSetList, List.mem_filter] at hs
    exact hs.2.1

theorem c5_gc_defaults_and_prefix_discipline_witness :
    "KUBE-NWPLCY-DEFAULT-INGRESS" ∉
      (cleanupChainLists ["KUBE-NWPLCY-DEFAULT-INGRESS", "KUBE-NWPLCY-STALE0123456",
        "KUBE-POD-FW-DEFAULT", "INPUT"] [] []).1 :=
  (c5_gc_defaults_and_prefix_discipline
    ["KUBE-NWPLCY-DEFAULT-INGRESS", "KUBE-NWPLCY-STALE0123456",
     "KUBE-POD-FW-DEFAULT", "INPUT"] [] [] [] []).1

/-- Claim C8: `NewNetworkPolicyController` fails, creating no controller
state, when the cluster-IP CIDR does not parse, when the node-port range
does not match the two-number format, or when the first port is at least
the second; in particular with `"80:65536"` (65536 overflows the 16-bit
parse) and with `"30000:30000"` (equal ports). -/
theorem c8_construction_validation :
    (∀ cidr npr : String, parseCIDRv4 cidr = none →
      isErr (newNetworkPolicyControllerModel cidr npr) = true) ∧
    (∀ cidr npr : String, nodePortMatch npr = none →
      isErr (newNetworkPolicyControllerModel cidr npr) = true) ∧
    (∀ (cidr npr m1 m2 : String) (p1 p2 : Int),
      nodePortMatch npr = some (m1, m2) → parseIntBit16 m1 = some p1 →
      parseIntBit16 m2 = some p2 → p1 ≥ p2 →
      isErr (newNetworkPolicyControllerModel cidr npr) = true) ∧
    isErr (newNetworkPolicyControllerModel "10.96.0.0/12" "80:65536") = true ∧
    isErr (newNetworkPolicyControllerModel "10.96.0.0/12" "30000:30000") = true := by
  refine ⟨?_, ?_, ?_, ?_, ?_⟩
  · intro cidr npr h
    simp [newNetworkPolicyControllerModel, h, isErr]
  · intro cidr npr h
    cases hc : parseCIDRv4 cidr <;>
      simp [newNetworkPolicyControllerModel, hc, h, isErr]
  · intro cidr npr m1 m2 p1 p2 hm hp1 hp2 hge
    cases hc : parseCIDRv4 cidr <;>
      simp [newNetworkPolicyControllerModel, hc, hm, hp1, hp2, hge, isErr]
  · decide
  · decide

theorem c8_construction_validation_witness :
    isErr (newNetworkPolicyControllerModel "not-a-cidr" "30000:32000") = true ∧
    isErr (newNetworkPolicyControllerModel "10.96.0.0/12" "30000") = true ∧
    isErr (newNetworkPolicyControllerModel "10.96.0.0/12" "32000:30000") = true :=
  ⟨c8_construction_validation.1 "not-a-cidr" "30000:32000" (by decide),
   c8_construction_validation.2.1 "10.96.0.0/12" "30000" (by decide),
   c8_construction_validation.2.2.1 "10.96.0.0/12" "32000:30000" "32000" "30000"
     32000 30000 (by decide) (by decide) (by decide) (by decide)⟩

/-- Claim C9: `podFirewallChainName` is deterministic in its inputs,
returns exactly the fixed pod-firewall name prefix followed by the first
16 characters of the base-32 encoding of the SHA-256 hash of
namespace, pod name and version concatenated, and always has the fixed
length 28. -/
theorem c9_name_derivation (ns1 ns2 pod1 pod2 v1 v2 : String)
    (h1 : ns1 = ns2) (h2 : pod1 = pod2) (h3 : v1 = v2) :
    podFirewallChainName ns1 pod1 v1 = podFirewallChainName ns2 pod2 v2 ∧
    podFirewallChainName ns1 pod1 v1 = kubePodFirewallChainPfx ++
      String.mk ((b32Encode (sha256Bytes (strBytes (ns1 ++ pod1 ++ v1)))).take 16) ∧
    (podFirewallChainName ns1 pod1 v1).length = 28 := by
  subst h1; subst h2; subst h3
  exact ⟨rfl, rfl, podFirewallChainName_length ns1 pod1 v1⟩

set_option maxRecDepth 100000 in
theorem c9_name_derivation_witness :
    podFirewallChainName "default" "A" "1" = podFirewallChainName "default" "A" "1" ∧
    (podFirewallChainName "default" "A" "1").length = 28 ∧
    podFirewallChainName "default" "A" "1" = "KUBE-POD-FW-RISFDZKD6MQIFWXR" :=
  ⟨(c9_name_derivation "default" "default" "A" "A" "1" "1" rfl rfl rfl).1,
   (c9_name_derivation "default" "default" "A" "A" "1" "1" rfl rfl rfl).2.2,
   by decide⟩

/-- Claim C10: because the node-port numbers go through
`strconv.ParseInt(_, 10, 16)` (signed 16-bit), every range whose first
or second port exceeds 32767 - although 1-65535 are valid TCP/UDP
ports - makes `NewNetworkPolicyController` return an error. -/
theorem c10_int16_port_parse (cidr npr m1 m2 : String)
    (hcidr : parseCIDRv4 cidr ≠ none)
    (hm : nodePortMatch npr = some (m1, m2))
    (hover : 32767 < digitsVal m1.data ∨ 32767 < digitsVal m2.data) :
    isErr (newNetworkPolicyControllerModel cidr npr) = true := by
  obtain ⟨⟨hne1, hdig1⟩, ⟨hne2, hdig2⟩⟩ := nodePortMatch_groups npr m1 m2 hm
  cases hc : parseCIDRv4 cidr with
  | none => exact absurd hc hcidr
  | some ipnet =>
    cases hover with
    | inl hov1 =>
      have hp1 : parseIntBit16 m1 = none := by
        simp [parseIntBit16, hne1, hdig1, hov1]
      simp [newNetworkPolicyControllerModel, hc, hm, hp1, isErr]
    | inr hov2 =>
      cases hp1 : parseIntBit16 m1 with
      | none => simp [newNetworkPolicyControllerModel, hc, hm, hp1, isErr]
      | some p1 =>
        have hp2 : parseIntBit16 m2 = none := by
          simp [parseIntBit16, hne2, hdig2, hov2]
        simp [newNetworkPolicyControllerModel, hc, hm, hp1, hp2, isErr]

theorem c10_int16_port_parse_witness :
    isErr (newNetworkPolicyControllerModel "10.96.0.0/12" "30000:40000") = true :=
  c10_int16_port_parse "10.96.0.0/12" "30000:40000" "30000" "40000"
    (by decide) (by decide) (by decide)

/-- Claim C6: the rebuilt filter-table buffer is `*filter`, then the
kept chain declarations (each a kept `:`-line with ` - [0:0]`
appended), then the kept rule lines (`-`-lines, in their original
order), then a single final `COMMIT`; every input line that references
a stale pod-firewall or policy chain, contains `COMMIT` or is a comment
has been excluded. -/
theorem c6_rebuilt_buffer_structure (lines cleanupPodFw cleanupPolicy : List String) :
    ∃ chainLines ruleLines,
      rebuildFilterTable lines cleanupPodFw cleanupPolicy =
        "*filter" :: (chainLines ++ ruleLines ++ ["COMMIT"]) ∧
      (∀ l ∈ chainLines, hasPfx l ":" = true ∧ l ≠ "COMMIT" ∧
        ∃ orig ∈ lines, skipLine cleanupPodFw cleanupPolicy orig = false ∧
          l = orig ++ " - [0:0]") ∧
      (∀ l ∈ ruleLines, hasPfx l "-" = true ∧ l ≠ "COMMIT" ∧
        l ∈ lines ∧ skipLine cleanupPodFw cleanupPolicy l = false) := by
  refine ⟨((lines.filter (fun r => !(skipLine cleanupPodFw cleanupPolicy r))).filter
      (fun r => hasPfx r ":")).map (fun r => r ++ " - [0:0]"),
    (lines.filter (fun r => !(skipLine cleanupPodFw cleanupPolicy r))).filter
      (fun r => hasPfx r "-"), rfl, ?_, ?_⟩
  · intro l hl
    rw [List.mem_map] at hl
    obtain ⟨orig, horig, rfl⟩ := hl
    rw [List.mem_filter] at horig
    obtain ⟨hkept, hcolon⟩ := horig
    rw [List.mem_filter] at hkept
    obtain ⟨hin, hskip⟩ := hkept
    have hskip2 : skipLine cleanupPodFw cleanupPolicy orig = false := by
      simpa using hskip
    refine ⟨hasPfx_append _ _ _ hcolon, ?_, orig, hin, hskip2, rfl⟩
    intro hC
    have hlen := congrArg String.length hC
    rw [string_append_length] at hlen
    have h8 : (" - [0:0]" : String).length = 8 := by decide
    have h6 : ("COMMIT" : String).length = 6 := by decide
    rw [h8, h6] at hlen
    omega
  · intro l hl
    rw [List.mem_filter] at hl
    obtain ⟨hkept, hdash⟩ := hl
    rw [List.mem_filter] at hkept
    obtain ⟨hin, hskip⟩ := hkept
    have hskip2 : skipLine cleanupPodFw cleanupPolicy l = false := by
      simpa using hskip
    refine ⟨hdash, ?_, hin, hskip2⟩
    intro hC
    subst hC
    have hself : containsStr "COMMIT" "COMMIT" = true := containsStr_self _
    simp [skipLine, hself] at hskip2

/-- Claim C7 (counterexample): a host on which every `Cleanup` step
succeeds - the custom forward and output chains exist, no chain carries
an engine name prefix, so both flush-and-delete passes complete and the
ipset step is reached.  The built-in `INPUT` chain still holds the
engine's jump rule into `KUBE-ROUTER-INPUT` afterwards (contradicting
"removes the engine's jump rules from the built-in chains"), and the
user-owned ipset has been destroyed by `Save()`/`DestroyAllWithin()`
(contradicting "removes nothing else"). -/
theorem c7_cleanup_counterexample :
    ((cleanupNPC
        { chains := [⟨"INPUT",
            ["-A INPUT -m comment --comment \"kube-router netpol - ABCDEFGHIJKLMNOP\" -j KUBE-ROUTER-INPUT"]⟩,
          ⟨"KUBE-ROUTER-INPUT", []⟩, ⟨"KUBE-ROUTER-FORWARD", []⟩, ⟨"KUBE-ROUTER-OUTPUT", []⟩],
          ipsets := ["user-defined-set"] }).1).chains =
      [⟨"INPUT",
        ["-A INPUT -m comment --comment \"kube-router netpol - ABCDEFGHIJKLMNOP\" -j KUBE-ROUTER-INPUT"]⟩,
       ⟨"KUBE-ROUTER-INPUT", []⟩, ⟨"KUBE-ROUTER-FORWARD", []⟩, ⟨"KUBE-ROUTER-OUTPUT", []⟩] ∧
    "user-defined-set" ∉ ((cleanupNPC
        { chains := [⟨"INPUT",
            ["-A INPUT -m comment --comment \"kube-router netpol - ABCDEFGHIJKLMNOP\" -j KUBE-ROUTER-INPUT"]⟩,
          ⟨"KUBE-ROUTER-INPUT", []⟩, ⟨"KUBE-ROUTER-FORWARD", []⟩, ⟨"KUBE-ROUTER-OUTPUT", []⟩],
          ipsets := ["user-defined-set"] }).1).ipsets ∧
    (cleanupNPC
        { chains := [⟨"INPUT",
            ["-A INPUT -m comment --comment \"kube-router netpol - ABCDEFGHIJKLMNOP\" -j KUBE-ROUTER-INPUT"]⟩,
          ⟨"KUBE-ROUTER-INPUT", []⟩, ⟨"KUBE-ROUTER-FORWARD", []⟩, ⟨"KUBE-ROUTER-OUTPUT", []⟩],
          ipsets := ["user-defined-set"] }).2 = true := by
  refine ⟨by decide, by decide, by decide⟩

/-- Claim C7 (amended): a single `Cleanup` invocation either reaches
the ipset step or returns at the first failing iptables step, and in no
case removes the engine's jump rules from the built-in chains.  When it
reaches the ipset step (both custom chains present, every flushed
engine-prefixed chain unreferenced so its deletion succeeds), it has
removed every chain carrying the pod-firewall or policy name prefix,
scrubbed pod-firewall references only from the engine's own custom
forward and output chains, and it destroys every ipset on the host,
engine-prefixed or not; when it returns early - in particular whenever
the custom forward chain is absent, where it changes nothing at all -
no ipset is destroyed, the engine's included.  Chains without engine
prefixes always survive under their own name, with their rules intact
outside the two scrubbed custom chains. -/
theorem c7_cleanup_amended (h : HostState) :
    ((cleanupNPC h).2 = true → ((cleanupNPC h).1).ipsets = []) ∧
    ((cleanupNPC h).2 = false → ((cleanupNPC h).1).ipsets = h.ipsets) ∧
    (h.chains.any (fun ch => ch.name == kubeForwardChainName) = false →
      cleanupNPC h = (h, false)) ∧
    ((cleanupNPC h).2 = true →
      ∀ ch ∈ ((cleanupNPC h).1).chains,
        hasPfx ch.name kubePodFirewallChainPfx = false ∧
        hasPfx ch.name kubeNetworkPolicyChainPfx = false) ∧
    (∀ ch ∈ h.chains,
      hasPfx ch.name kubePodFirewallChainPfx = false →
      hasPfx ch.name kubeNetworkPolicyChainPfx = false →
      ∃ ch2 ∈ ((cleanupNPC h).1).chains, ch2.name = ch.name ∧
        (ch.name ≠ kubeForwardChainName → ch.name ≠ kubeOutputChainName →
          ch2.rules = ch.rules)) :=
  ⟨(cleanupNPC_ipsets h).1, (cleanupNPC_ipsets h).2,
   cleanupNPC_missing_forward h,
   cleanupNPC_complete_chains h,
   fun ch hch hp1 hp2 => cleanupNPC_chain_survives h ch hch hp1 hp2⟩

theorem c7_cleanup_amended_witness :
    cleanupNPC
      { chains := [⟨"KUBE-POD-FW-STALECHAIN000000", ["-A x"]⟩],
        ipsets := ["KUBE-SRC-AAAA", "user-defined-set"] } =
    ({ chains := [⟨"KUBE-POD-FW-STALECHAIN000000", ["-A x"]⟩],
       ipsets := ["KUBE-SRC-AAAA", "user-defined-set"] }, false) :=
  (c7_cleanup_amended
    { chains := [⟨"KUBE-POD-FW-STALECHAIN000000", ["-A x"]⟩],
      ipsets := ["KUBE-SRC-AAAA", "user-defined-set"] }).2.2.1 (by decide)

theorem c6_rebuilt_buffer_structure_witness :
    (rebuildFilterTable [":KUBE-POD-FW-KEEP000000000000", "-A KUBE-POD-FW-KEEP000000000000 -j ACCEPT",
      "-A KUBE-ROUTER-FORWARD -j KUBE-POD-FW-STALE000000000000", "COMMIT", "# comment"]
      ["KUBE-POD-FW-STALE000000000000"] []).head? = some "*filter" := by
  obtain ⟨chainLines, ruleLines, heq, _, _⟩ :=
    c6_rebuilt_buffer_structure
      [":KUBE-POD-FW-KEEP000000000000", "-A KUBE-POD-FW-KEEP000000000000 -j ACCEPT",
       "-A KUBE-ROUTER-FORWARD -j KUBE-POD-FW-STALE000000000000", "COMMIT", "# comment"]
      ["KUBE-POD-FW-STALE000000000000"] []
  rw [heq]
  rfl

/-- Claim C2 (counterexample): for the local pod `A` in namespace
`default` with IP `10.1.2.5`, no policies, sync version `1`, the last
rule of the installed pod-firewall chain is the admitted-by-policy mark
rule, not the reject rule - so the claimed order (tail mark rules of
step 4 before the step-5 log and reject rules, reject last) does not
hold: the appended `-A` lines of `processNonWhitelistedTrafficRules`
precede those of `processWhitelistedTrafficRules` in emission order and
therefore in installed order. -/
theorem c2_installed_order_counterexample :
    (installedChain (syncPodFirewall ⟨"10.1.2.5", "A", "default", []⟩ [] "1")
        (podFirewallChainName "default" "A" "1")).getLast? =
      some admitMarkArgs ∧
    admitMarkArgs ≠ rejectRuleArgs "A" "default" := by
  constructor
  · set_option maxRecDepth 1000000 in decide
  · decide

/-- Claim C2 (amended): in every installed pod-firewall chain the four
appended tail rules come last, in the order log rule, reject rule,
mark-reset rule, admitted-by-policy mark rule - i.e. the step-5 rules
precede the step-4 tail mark rules and the admitted-by-policy mark rule
is last in the chain. -/
theorem c2_installed_tail_order (pod : PodInfoT)
    (pols : List NetworkPolicyInfoT) (version : String) :
    ∃ pre,
      installedChain (syncPodFirewall pod pols version)
        (podFirewallChainName pod.ns pod.name version) =
      pre ++ [logRuleArgs pod.name pod.ns, rejectRuleArgs pod.name pod.ns,
        resetMarkArgs, admitMarkArgs] := by
  have hne := podFirewallChainName_ne_top pod.ns pod.name version
  refine ⟨(setupPodEgressRules pod (podFirewallChainName pod.ns pod.name version) pols
      version).reverse.map IptRule.args ++
    (setupPodIngressRules pod (podFirewallChainName pod.ns pod.name version) pols
      version).reverse.map IptRule.args, ?_⟩
  exact installed_syncPodFirewall_gen pod pols version
    (podFirewallChainName pod.ns pod.name version) hne.1 hne.2.1 hne.2.2

set_option maxRecDepth 1000000 in
theorem c2_installed_tail_order_witness :
    (installedChain (syncPodFirewall ⟨"10.1.2.5", "B", "default", []⟩ [] "2")
        (podFirewallChainName "default" "B" "2")).getLast? = some admitMarkArgs := by
  obtain ⟨pre, heq⟩ := c2_installed_tail_order ⟨"10.1.2.5", "B", "default", []⟩ [] "2"
  rw [heq, List.getLast?_append]
  · rfl

end Netpol
